import Mathlib

/-
  Verification of the Smart Finance Tracker core (src/smart_finance_tracker.py)
  against its natural-language specification.

  Shallow embedding conventions:
  * A SQLite table is a `List` of row structures; the AUTOINCREMENT id column
    is modelled by assigning `max existing id + 1` to a new row.
  * REAL currency amounts are modelled as `Int` (exact values; the claims are
    about the aggregation and storage logic, not float rounding).
  * TEXT dates are `String`s; SQLite compares TEXT with binary collation, so
    `BETWEEN` on dates is the lexicographic `≤` on `String`.
  * Python optional parameters `start_date=None, end_date=None` are
    `Option String`; Python truthiness (`if start_date and end_date:`) is
    `truthy`: `None` and the empty string are falsy.
  * `ORDER BY date DESC` / `ORDER BY total DESC` are `List.insertionSort` with
    a ≥-style relation (SQLite leaves tie order unspecified; the spec allows
    any deterministic refinement).
-/

namespace SmartFinanceTracker

/-- Row of the `expenses` table (init_database, lines 28-38 of the source):
id INTEGER PRIMARY KEY AUTOINCREMENT, date TEXT, amount REAL, description TEXT,
category TEXT, payment_method TEXT (defaulting to Cash), created_at TIMESTAMP. -/
structure Expense where
  id : Nat
  date : String
  amount : Int
  descr : String
  category : String
  payment_method : String
  created_at : Nat
deriving DecidableEq, Repr

/-- Row of the `income` table (init_database, lines 51-59 of the source):
id, date TEXT, amount REAL, source TEXT, created_at TIMESTAMP. -/
structure Income where
  id : Nat
  date : String
  amount : Int
  source : String
  created_at : Nat
deriving DecidableEq, Repr

/-- Row of the `budgets` table (init_database, lines 41-48 of the source):
id, category TEXT UNIQUE, budget_amount REAL, month_year TEXT. -/
structure Budget where
  id : Nat
  category : String
  budget_amount : Int
  month_year : String
deriving DecidableEq, Repr

/-- The backing store: each table either exists (with its rows) or does not
exist yet. `CREATE TABLE IF NOT EXISTS` acts on this distinction. -/
structure DBState where
  expenses : Option (List Expense)
  budgets : Option (List Budget)
  income : Option (List Income)
deriving DecidableEq

/-- One `CREATE TABLE IF NOT EXISTS` statement: creates an empty table when
absent, leaves an existing table and all its rows untouched. -/
def createTableIfNotExists {α : Type} : Option (List α) → Option (List α)
  | none => some []
  | some rows => some rows

/-- Embeds `FinanceDatabase.init_database` (lines 22-62): issues
`CREATE TABLE IF NOT EXISTS` for the expenses, budgets and income tables. -/
def init_database (s : DBState) : DBState :=
  { expenses := createTableIfNotExists s.expenses
    budgets := createTableIfNotExists s.budgets
    income := createTableIfNotExists s.income }

/-- Python truthiness of an optional string argument: `None` and `""` are
falsy, every other string is truthy. -/
def truthy : Option String → Bool
  | none => false
  | some s => s != ""

/-- SQLite AUTOINCREMENT: a fresh id strictly greater than every id already
in the table. -/
def nextExpenseId (rows : List Expense) : Nat :=
  (rows.map Expense.id).foldr max 0 + 1

/-- Embeds `FinanceDatabase.add_expense` (lines 64-73): INSERT a single new row with
the given fields, a fresh id, and the current timestamp (`now`, standing for
CURRENT_TIMESTAMP). -/
def add_expense (rows : List Expense) (date : String) (amount : Int)
    (descr : String) (category : String) (payment_method : String)
    (now : Nat) : List Expense :=
  rows ++ [⟨nextExpenseId rows, date, amount, descr, category, payment_method, now⟩]

/-- SQLite binary-collation comparison of two TEXT values: lexicographic
order on the character sequences. It agrees with the `≤` of `String`
(theorem `dateLe_iff` below); the `toList` form is used so the comparison
evaluates on concrete inputs. -/
def dateLe (a b : String) : Bool :=
  decide (a.toList ≤ b.toList)

/-- The SQL predicate `date BETWEEN s AND e` (inclusive, binary-collation
lexicographic comparison on TEXT). -/
def withinRange (s e : String) (x : Expense) : Bool :=
  dateLe s x.date && dateLe x.date e

/-- The WHERE clause of `get_expenses` / `get_category_totals`: the date
filter applies only when both optional bounds are truthy. -/
def filterRange (rows : List Expense) (s e : Option String) : List Expense :=
  if truthy s && truthy e then
    rows.filter (withinRange (s.getD "") (e.getD ""))
  else
    rows

/-- The `ORDER BY date DESC` clause as a relation on expense rows. -/
def expDateGe (a b : Expense) : Prop :=
  dateLe b.date a.date = true

instance : DecidableRel expDateGe :=
  fun a b => inferInstanceAs (Decidable (dateLe b.date a.date = true))

instance : IsTotal Expense expDateGe :=
  ⟨fun a b => by
    simp only [expDateGe, dateLe, decide_eq_true_eq]
    exact le_total b.date.toList a.date.toList⟩

instance : IsTrans Expense expDateGe :=
  ⟨fun a b c h1 h2 => by
    simp only [expDateGe, dateLe, decide_eq_true_eq] at h1 h2 ⊢
    exact le_trans h2 h1⟩

/-- Embeds `FinanceDatabase.get_expenses` (lines 75-90): SELECT * FROM expenses,
filtered to `date BETWEEN start AND end` only when both bounds are truthy,
ORDER BY date DESC. -/
def get_expenses (rows : List Expense) (start_date end_date : Option String) :
    List Expense :=
  List.insertionSort expDateGe (filterRange rows start_date end_date)

/-- SUM(amount) of the rows of one category (the GROUP BY aggregate). -/
def categoryTotal (rows : List Expense) (c : String) : Int :=
  ((rows.filter (fun x => x.category == c)).map Expense.amount).sum

/-- The `ORDER BY total DESC` clause as a relation on (category, total) result rows. -/
def totGe (a b : String × Int) : Prop :=
  b.2 ≤ a.2

instance : DecidableRel totGe :=
  fun a b => inferInstanceAs (Decidable (b.2 ≤ a.2))

instance : IsTotal (String × Int) totGe :=
  ⟨fun a b => le_total b.2 a.2⟩

instance : IsTrans (String × Int) totGe :=
  ⟨fun _ _ _ h1 h2 => le_trans h2 h1⟩

/-- Embeds `FinanceDatabase.get_category_totals` (lines 92-115): SELECT category,
SUM(amount) FROM expenses [WHERE date BETWEEN ? AND ?] GROUP BY category
ORDER BY total DESC. GROUP BY produces one row per distinct category value
present in the filtered rows. -/
def get_category_totals (rows : List Expense) (start_date end_date : Option String) :
    List (String × Int) :=
  let f := filterRange rows start_date end_date
  List.insertionSort totGe
    (((f.map Expense.category).dedup).map (fun c => (c, categoryTotal f c)))

/-- The income table has no insert operation anywhere in the source; only its
schema exists. Fresh AUTOINCREMENT id for the spec-modelled `addIncome`. -/
def nextIncomeId (rows : List Income) : Nat :=
  (rows.map Income.id).foldr max 0 + 1

/-- Modelled from the spec: the repository creates the income table
(init_database, lines 50-59) but contains no addIncome operation at all.
Following the spec sentence "addIncome(date, amount, source): analogous, for
income records", it appends one new income record with a freshly assigned
identifier and the current creation timestamp. -/
def add_income (rows : List Income) (date : String) (amount : Int)
    (source : String) (now : Nat) : List Income :=
  rows ++ [⟨nextIncomeId rows, date, amount, source, now⟩]

/-- The dialog shown by `FinanceTrackerGUI.set_budget` (lines 526-541): an
error when a form field is missing, an error when `float(amount)` raises
ValueError, or the success message naming the category. -/
inductive GuiMessage
  | fillAllFields
  | invalidAmount
  | success (category : String)
deriving DecidableEq, Repr

/-- Observable outcome of one `FinanceTrackerGUI.set_budget` call: the budget
table rows afterwards, the dialog shown, and the two form fields afterwards. -/
structure SetBudgetResult where
  budgets : List Budget
  message : GuiMessage
  categoryField : String
  amountField : String
deriving DecidableEq, Repr

/-- Embeds `FinanceTrackerGUI.set_budget` (lines 526-541), the only setBudget in the
source. It reads the two form fields, rejects an empty field, parses the
amount with `float` (modelled by `parseAmount`, `none` = ValueError), and on
success shows a confirmation dialog and clears the form. No statement in the
method touches the database: the budget table rows are returned unchanged on
every path. -/
def set_budget (budgets : List Budget) (category amount : String)
    (parseAmount : String → Option Int) : SetBudgetResult :=
  if category = "" || amount = "" then
    ⟨budgets, .fillAllFields, category, amount⟩
  else
    match parseAmount amount with
    | some _ => ⟨budgets, .success category, "", ""⟩
    | none => ⟨budgets, .invalidAmount, category, amount⟩

/-- The 28 bundled training examples of
`ExpenseCategorizer.create_initial_model` (lines 141-170). -/
def trainingData : List (String × String) :=
  [("pizza delivery", "Food & Dining"),
   ("grocery store", "Food & Dining"),
   ("restaurant bill", "Food & Dining"),
   ("coffee shop", "Food & Dining"),
   ("gas station", "Transportation"),
   ("uber ride", "Transportation"),
   ("bus ticket", "Transportation"),
   ("car maintenance", "Transportation"),
   ("amazon purchase", "Shopping"),
   ("clothing store", "Shopping"),
   ("electronics", "Shopping"),
   ("movie tickets", "Entertainment"),
   ("concert", "Entertainment"),
   ("streaming service", "Entertainment"),
   ("electricity bill", "Bills & Utilities"),
   ("phone bill", "Bills & Utilities"),
   ("internet", "Bills & Utilities"),
   ("doctor visit", "Healthcare"),
   ("pharmacy", "Healthcare"),
   ("dental", "Healthcare"),
   ("tuition", "Education"),
   ("books", "Education"),
   ("hotel", "Travel"),
   ("flight", "Travel"),
   ("haircut", "Personal Care"),
   ("cosmetics", "Personal Care"),
   ("home depot", "Home & Garden"),
   ("garden supplies", "Home & Garden")]

/-- The fixed list `self.categories` of `ExpenseCategorizer.__init__`
(lines 120-124): the eleven admissible categories. -/
def categories : List String :=
  ["Food & Dining", "Transportation", "Shopping", "Entertainment",
   "Bills & Utilities", "Healthcare", "Education", "Travel",
   "Personal Care", "Home & Garden", "Miscellaneous"]

/-- The class set of the fitted classifier: the distinct labels of the
bundled training examples (MultinomialNB.fit derives `classes_` from the
label column; `predict` always returns a member of `classes_`). -/
def nbClasses : List String :=
  (trainingData.map Prod.snd).dedup

/-- Abstraction of the fitted sklearn pipeline
(TfidfVectorizer + MultinomialNB) for one input description:
`proba d c` stands for the predicted probability of class `c` on input `d`
(the IEEE-754 numeric values are left abstract as rationals), and
`err d = true` stands for the pipeline raising an exception on input `d`.
Predictions are `classes_[argmax ...]`, so every structural property proved
for all `proba`/`err` holds in particular for the concrete float behavior. -/
structure NBModel where
  proba : String → String → ℚ
  err : String → Bool

/-- numpy argmax over a class list: the first class attaining the maximal
score (a later class replaces the current best only when strictly greater). -/
def argmaxFrom (score : String → ℚ) (best : String) : List String → String
  | [] => best
  | c :: cs => if score best < score c then argmaxFrom score c cs
               else argmaxFrom score best cs

/-- Embeds `self.model.predict` on one input: the class of `classes_` with maximal score. -/
def predictNB (m : NBModel) (d : String) : String :=
  match nbClasses with
  | [] => "Miscellaneous"
  | c :: cs => argmaxFrom (m.proba d) c cs

/-- Embeds `max(self.model.predict_proba(...))`: the largest class probability. -/
def maxProba (m : NBModel) (d : String) : ℚ :=
  ((nbClasses.map (m.proba d)).foldr max 0)

/-- Embeds `ExpenseCategorizer.categorize` (lines 184-193): when `self.model` is
falsy, fall through to the final return of Miscellaneous; inside the `try`,
lowercase the description, predict, take the max class probability, and
return the prediction only when that confidence exceeds 0.3; any exception is
swallowed by the bare `except` and the method returns Miscellaneous. -/
def categorize (model : Option NBModel) (description : String) : String :=
  match model with
  | none => "Miscellaneous"
  | some m =>
    if m.err (description.toLower) then "Miscellaneous"
    else if (3 : ℚ)/10 < maxProba m (description.toLower) then
      predictNB m (description.toLower)
    else "Miscellaneous"

/-- Concrete model behavior used to instantiate theorems: the pipeline
raises on every input. -/
def failingModel : NBModel :=
  { proba := fun _ _ => 0, err := fun _ => true }

/-- Concrete parse function used to instantiate theorems: `float` succeeds
on the string "100". -/
def parse100 : String → Option Int :=
  fun s => if s = "100" then some 100 else none

/-- Sample expense row used to instantiate theorems on concrete inputs. -/
def sampleExpense : Expense :=
  { id := 1, date := "2024-03-05", amount := 5, descr := "x",
    category := "Food & Dining", payment_method := "Cash", created_at := 0 }

/- ===================== Theorems ===================== -/

theorem mem_le_foldr_max {l : List Nat} {x : Nat} (h : x ∈ l) :
    x ≤ l.foldr max 0 := by
  induction l with
  | nil => cases h
  | cons a t ih =>
    rcases List.mem_cons.mp h with rfl | h2
    · exact le_max_left _ _
    · exact le_trans (ih h2) (le_max_right _ _)

theorem argmaxFrom_mem (score : String → ℚ) (best : String) (cs : List String) :
    argmaxFrom score best cs ∈ best :: cs := by
  induction cs generalizing best with
  | nil => simp [argmaxFrom]
  | cons c cs ih =>
    rw [argmaxFrom]
    by_cases h : score best < score c
    · simp only [h, if_true]
      exact List.mem_cons_of_mem _ (ih c)
    · simp only [h, if_false]
      rcases List.mem_cons.mp (ih best) with h2 | h2
      · rw [h2]; exact List.mem_cons_self _ _
      · exact List.mem_cons_of_mem _ (List.mem_cons_of_mem _ h2)

theorem predictNB_mem (m : NBModel) (d : String) :
    predictNB m d ∈ categories := by
  have hsub : ∀ x ∈ nbClasses, x ∈ categories := by decide
  unfold predictNB
  rcases hcl : nbClasses with _ | ⟨c, cs⟩
  · show ("Miscellaneous" : String) ∈ categories
    decide
  · show argmaxFrom (m.proba d) c cs ∈ categories
    have hm := argmaxFrom_mem (m.proba d) c cs
    rw [← hcl] at hm
    exact hsub _ hm

/-- C8: the store's initialization is idempotent — running it again is a
no-op, and one run ensures each of the three tables exists while keeping
every row an existing table already held. -/
theorem init_database_idempotent (s : DBState) :
    init_database (init_database s) = init_database s ∧
    (init_database s).expenses = some (s.expenses.getD []) ∧
    (init_database s).budgets = some (s.budgets.getD []) ∧
    (init_database s).income = some (s.income.getD []) := by
  obtain ⟨e, b, i⟩ := s
  cases e <;> cases b <;> cases i <;>
    simp [init_database, createTableIfNotExists]

/-- C2: addIncome (modelled from the spec, since the source only declares the
income schema) appends exactly one new income record carrying the given
date, amount and source, the current creation timestamp, and an identifier
not used by any previously stored record; all previous records are kept
unchanged in place. -/
theorem add_income_appends (rows : List Income) (d : String) (a : Int)
    (src : String) (now : Nat) :
    (add_income rows d a src now).take rows.length = rows ∧
    ∃ r : Income, add_income rows d a src now = rows ++ [r] ∧
      r.date = d ∧ r.amount = a ∧ r.source = src ∧ r.created_at = now ∧
      r.id ∉ rows.map Income.id := by
  refine ⟨by simp [add_income], ?_⟩
  refine ⟨_, rfl, rfl, rfl, rfl, rfl, ?_⟩
  intro hmem
  have h := mem_le_foldr_max hmem
  simp only [nextIncomeId] at h
  omega

/-- C1 counterexample (code bug): calling the GUI set_budget twice for the
category "Food & Dining" with a parsable amount reports success both times,
yet the budget table still contains no row at all afterwards — the method
never inserts or replaces a budget row. -/
theorem set_budget_never_writes :
    (set_budget (set_budget [] "Food & Dining" "100" parse100).budgets
        "Food & Dining" "100" parse100).budgets = [] ∧
    (set_budget [] "Food & Dining" "100" parse100).message
      = GuiMessage.success "Food & Dining" ∧
    (set_budget (set_budget [] "Food & Dining" "100" parse100).budgets
        "Food & Dining" "100" parse100).message
      = GuiMessage.success "Food & Dining" := by
  refine ⟨rfl, rfl, rfl⟩

/-- C7: categorize never propagates a failure: with no model it returns
"Miscellaneous", and whenever the categorization pipeline raises on the
lowercased input, the exception is absorbed and the call still returns
"Miscellaneous". -/
theorem categorize_absorbs_failures (m : NBModel) (d : String)
    (h : m.err (d.toLower) = true) :
    categorize none d = "Miscellaneous" ∧
    categorize (some m) d = "Miscellaneous" := by
  refine ⟨rfl, ?_⟩
  simp [categorize, h]

theorem categorize_absorbs_failures_witness :
    failingModel.err ("Pizza".toLower) = true ∧
    categorize none "Pizza" = "Miscellaneous" ∧
    categorize (some failingModel) "Pizza" = "Miscellaneous" :=
  ⟨rfl, (categorize_absorbs_failures failingModel "Pizza" rfl).1,
    (categorize_absorbs_failures failingModel "Pizza" rfl).2⟩

/-- C9: whatever the model state (absent, failing, or any numeric behavior
of the fitted classifier), categorize always returns one of the eleven fixed
categories: either a label drawn from the bundled training examples or the
fallback "Miscellaneous". -/
theorem categorize_in_categories (model : Option NBModel) (d : String) :
    categorize model d ∈ categories := by
  cases model with
  | none =>
    show ("Miscellaneous" : String) ∈ categories
    decide
  | some m =>
    show (if m.err (d.toLower) then "Miscellaneous"
          else if (3 : ℚ)/10 < maxProba m (d.toLower) then
            predictNB m (d.toLower)
          else "Miscellaneous") ∈ categories
    have hmisc : ("Miscellaneous" : String) ∈ categories := by decide
    by_cases h : m.err (d.toLower) = true
    · simp only [h, if_true]
      exact hmisc
    · simp only [Bool.not_eq_true] at h
      simp only [h, Bool.false_eq_true, if_false]
      by_cases h2 : (3 : ℚ)/10 < maxProba m (d.toLower)
      · simp only [h2, if_true]
        exact predictNB_mem m d.toLower
      · simp only [h2, if_false]
        exact hmisc

theorem dateLe_iff (a b : String) : dateLe a b = true ↔ a ≤ b := by
  rw [dateLe, decide_eq_true_eq, String.le_iff_toList_le]

theorem map_fst_pairing (t : String → Int) (l : List String) :
    (l.map (fun x => (x, t x))).map Prod.fst = l := by
  induction l with
  | nil => rfl
  | cons a l ih => simp_all

theorem truthy_some {s : String} (h : s ≠ "") : truthy (some s) = true := by
  simp [truthy, h]

theorem filterRange_some {s e : String} (hs : s ≠ "") (he : e ≠ "")
    (rows : List Expense) :
    filterRange rows (some s) (some e) = rows.filter (withinRange s e) := by
  simp [filterRange, truthy_some hs, truthy_some he]

/-- C4 counterexample: when the end bound is the empty string, get_expenses
applies no date filter at all, so it returns a record whose date falls
strictly after the end bound — outside the closed interval the claim
promises for every pair of bounds. -/
theorem get_expenses_range_cx :
    sampleExpense ∈ get_expenses [sampleExpense] (some "2024-01-01") (some "") ∧
    ¬ (("2024-01-01" : String) ≤ sampleExpense.date ∧ sampleExpense.date ≤ "") := by
  refine ⟨by decide, ?_⟩
  simp only [String.le_iff_toList_le]
  decide

/-- C4 (amended): whenever both bounds are nonempty strings, every record
returned by get_expenses has its date within the closed interval
[start, end]. -/
theorem get_expenses_range_correct (rows : List Expense) (s e : String)
    (hs : s ≠ "") (he : e ≠ "") :
    ∀ x ∈ get_expenses rows (some s) (some e), s ≤ x.date ∧ x.date ≤ e := by
  intro x hx
  rw [get_expenses, filterRange_some hs he, List.mem_insertionSort] at hx
  have hpass := List.of_mem_filter hx
  simpa [withinRange, Bool.and_eq_true, dateLe_iff] using hpass

theorem get_expenses_range_correct_witness :
    ("2024-01-01" : String) ≤ sampleExpense.date ∧
    sampleExpense.date ≤ "2024-12-31" :=
  get_expenses_range_correct [sampleExpense] "2024-01-01" "2024-12-31"
    (by decide) (by decide) sampleExpense (by decide)

/-- C3: adding a valid expense and then querying with a covering truthy date
range grows the returned result set by exactly one, and the result contains
a record whose date, amount, description and category equal the inputs. -/
theorem add_expense_then_get (rows : List Expense) (d : String) (a : Int)
    (ds cat pm : String) (now : Nat) (s e : String)
    (_ha : 0 < a) (hs : s ≠ "") (he : e ≠ "") (h1 : s ≤ d) (h2 : d ≤ e) :
    (get_expenses (add_expense rows d a ds cat pm now) (some s) (some e)).length
      = (get_expenses rows (some s) (some e)).length + 1 ∧
    ∃ r ∈ get_expenses (add_expense rows d a ds cat pm now) (some s) (some e),
      r.date = d ∧ r.amount = a ∧ r.descr = ds ∧ r.category = cat := by
  have hd1 : dateLe s d = true := (dateLe_iff s d).mpr h1
  have hd2 : dateLe d e = true := (dateLe_iff d e).mpr h2
  have hfilter : (add_expense rows d a ds cat pm now).filter (withinRange s e)
      = rows.filter (withinRange s e)
        ++ [⟨nextExpenseId rows, d, a, ds, cat, pm, now⟩] := by
    rw [add_expense, List.filter_append]
    simp [withinRange, hd1, hd2]
  constructor
  · rw [get_expenses, get_expenses, filterRange_some hs he,
      filterRange_some hs he, List.length_insertionSort,
      List.length_insertionSort, hfilter, List.length_append]
    rfl
  · refine ⟨⟨nextExpenseId rows, d, a, ds, cat, pm, now⟩, ?_, rfl, rfl, rfl, rfl⟩
    rw [get_expenses, filterRange_some hs he, List.mem_insertionSort, hfilter]
    exact List.mem_append_right _ (List.mem_singleton_self _)

theorem add_expense_then_get_witness :
    (get_expenses (add_expense [] "2024-03-05" 5 "x" "Food & Dining" "Cash" 0)
        (some "2024-01-01") (some "2024-12-31")).length
      = (get_expenses [] (some "2024-01-01") (some "2024-12-31")).length + 1 :=
  (add_expense_then_get [] "2024-03-05" 5 "x" "Food & Dining" "Cash" 0
    "2024-01-01" "2024-12-31" (by decide) (by decide) (by decide)
    (by rw [String.le_iff_toList_le]; decide)
    (by rw [String.le_iff_toList_le]; decide)).1

/-- C10: when the two optional bounds are not both truthy (a bound missing,
or an empty string supplied), get_expenses applies no date filter: the call
returns exactly the unbounded result, a reordering of every stored record. -/
theorem get_expenses_no_filter (rows : List Expense) (s e : Option String)
    (h : ¬(truthy s = true ∧ truthy e = true)) :
    get_expenses rows s e = get_expenses rows none none ∧
    (get_expenses rows s e).Perm rows := by
  have hb : (truthy s && truthy e) = false := by
    cases hs : truthy s <;> cases he : truthy e <;> simp_all
  have hfr : filterRange rows s e = rows := by
    simp [filterRange, hb]
  constructor
  · rw [get_expenses, get_expenses, hfr]
    rfl
  · rw [get_expenses, hfr]
    exact List.perm_insertionSort _ _

theorem get_expenses_no_filter_witness :
    get_expenses [sampleExpense] (some "2024-01-01") (some "")
      = get_expenses [sampleExpense] none none ∧
    (get_expenses [sampleExpense] (some "2024-01-01") (some "")).Perm
      [sampleExpense] :=
  get_expenses_no_filter [sampleExpense] (some "2024-01-01") (some "")
    (by decide)

/-- C5: with a truthy date range, get_category_totals has exactly one row for
each category owning at least one expense in the range (and none for a
category with no matching expense), each row's total is the exact sum of the
matching amounts of its category, and the totals appear in descending
order. -/
theorem get_category_totals_correct (rows : List Expense) (s e c : String)
    (hs : s ≠ "") (he : e ≠ "") :
    ((get_category_totals rows (some s) (some e)).map Prod.fst).count c
      = (if c ∈ (rows.filter (withinRange s e)).map Expense.category
         then 1 else 0) ∧
    (∀ p ∈ get_category_totals rows (some s) (some e),
      p.2 = categoryTotal (rows.filter (withinRange s e)) p.1) ∧
    List.Pairwise (fun a b : Int => b ≤ a)
      ((get_category_totals rows (some s) (some e)).map Prod.snd) := by
  have hgct : get_category_totals rows (some s) (some e)
      = List.insertionSort totGe
          ((((rows.filter (withinRange s e)).map Expense.category).dedup).map
            (fun x => (x, categoryTotal (rows.filter (withinRange s e)) x))) := by
    rw [get_category_totals, filterRange_some hs he]
  have hperm := List.perm_insertionSort totGe
    ((((rows.filter (withinRange s e)).map Expense.category).dedup).map
      (fun x => (x, categoryTotal (rows.filter (withinRange s e)) x)))
  refine ⟨?_, ?_, ?_⟩
  · rw [hgct, (hperm.map Prod.fst).count_eq]
    have h2 : ((((rows.filter (withinRange s e)).map Expense.category).dedup).map
        (fun x => (x, categoryTotal (rows.filter (withinRange s e)) x))).map
          Prod.fst
        = ((rows.filter (withinRange s e)).map Expense.category).dedup :=
      map_fst_pairing _ _
    rw [h2, List.count_dedup]
  · intro p hp
    rw [hgct, List.mem_insertionSort] at hp
    obtain ⟨x, hx, rfl⟩ := List.mem_map.mp hp
    rfl
  · rw [hgct]
    have hsorted := List.sorted_insertionSort totGe
      ((((rows.filter (withinRange s e)).map Expense.category).dedup).map
        (fun x => (x, categoryTotal (rows.filter (withinRange s e)) x)))
    exact List.pairwise_map.mpr hsorted

theorem get_category_totals_correct_witness :
    ((get_category_totals [sampleExpense] (some "2024-01-01")
        (some "2024-12-31")).map Prod.fst).count "Food & Dining" = 1 := by
  have h := (get_category_totals_correct [sampleExpense] "2024-01-01"
    "2024-12-31" "Food & Dining" (by decide) (by decide)).1
  rw [h]
  decide

end SmartFinanceTracker
